import Mathlib

/- Verification of the document-processing core of the Macosbuild repository:
   backend/documents.py (DocumentProcessor), backend/rag.py (VectorStore,
   RAGPipeline) and backend/config.py (Settings).

   Modelling conventions of this shallow embedding:
   - text is List Char; Python integer index arithmetic is Int, because slice
     and index expressions in the chunker can go negative;
   - Python floats are modelled as exact rationals;
   - fallible Python code returns Option or Except;
   - the while loop of chunk_text is embedded with explicit fuel, since for
     some parameters it does not terminate (see the analysis of claim C2). -/

namespace Macosbuild

/-- Setting CHUNK_SIZE from backend/config.py line 29. -/
def CHUNK_SIZE : Nat := 512

/-- Setting CHUNK_OVERLAP from backend/config.py line 30. -/
def CHUNK_OVERLAP : Nat := 50

/-- Setting MAX_CONTEXT_LENGTH from backend/config.py line 31. -/
def MAX_CONTEXT_LENGTH : Nat := 4000

/-- Python sequence indexing text[i]: a negative index counts from the end.
    Out-of-range access raises IndexError in Python; that case never occurs at
    the call sites embedded here, and a space character (never a sentence
    terminator) stands in for it. -/
def pyGet (text : List Char) (i : Int) : Char :=
  if i < 0 then text.getD ((text.length : Int) + i).toNat ' '
  else text.getD i.toNat ' '

/-- Python slice text[a:b] with step 1: negative endpoints count from the end,
    then both endpoints are clamped into [0, len]. -/
def pySlice (text : List Char) (a b : Int) : List Char :=
  let n : Int := text.length
  let lo : Int := if a < 0 then max (n + a) 0 else min a n
  let hi : Int := if b < 0 then max (n + b) 0 else min b n
  (text.take hi.toNat).drop lo.toNat

/-- Python str.strip() with no argument: remove leading and trailing
    whitespace (the ASCII whitespace set suffices for the texts considered
    in this development). -/
def pyStrip (l : List Char) : List Char :=
  ((l.dropWhile Char.isWhitespace).reverse.dropWhile Char.isWhitespace).reverse

/-- Python str.split() with no argument: split on runs of whitespace,
    producing no empty words. -/
def pySplit (l : List Char) : List (List Char) :=
  (l.splitOnP Char.isWhitespace).filter (fun w => w ≠ [])

/-- Python str.lower() restricted to ASCII case mapping, which covers every
    input exercised here. -/
def pyLower (l : List Char) : List Char := l.map Char.toLower

/-- Sentence terminators recognised by chunk_text: the characters of the
    Python string literal in documents.py line 79. -/
def sentenceEnders : List Char := ['.', '!', '?']

/-- Backward scan of chunk_text over n indices i, i-1, ..., i-n+1, returning
    the first (that is, highest) index holding a sentence terminator. This is
    the loop for i in range(end, stop, -1) of documents.py lines 78-81, whose
    iteration count is end - stop when positive. -/
def scanBack (text : List Char) : Int → Nat → Option Int
  | _, 0 => none
  | i, n + 1 =>
    if pyGet text i ∈ sentenceEnders then some i
    else scanBack text (i - 1) n

/-- Loop for i in range(i, stop, -1) of documents.py line 78: the scanned
    indices run from i down to stop exclusive. -/
def findBoundary (text : List Char) (stop i : Int) : Option Int :=
  scanBack text i (i - stop).toNat

/-- End-of-chunk computation of chunk_text, documents.py lines 73-81: the
    tentative end is start + size; if that lands inside the text, scan
    backward from it for a sentence terminator, down to
    max(start + size // 2, end - 100) exclusive, and cut just after the
    terminator found. -/
def chunkEnd (text : List Char) (size : Nat) (start : Int) : Int :=
  if start + (size : Int) < (text.length : Int) then
    match findBoundary text
        (max (start + ((size / 2 : Nat) : Int)) (start + (size : Int) - 100))
        (start + (size : Int)) with
    | some i => i + 1
    | none => start + (size : Int)
  else start + (size : Int)

/-- Next window start computed at documents.py line 90: start = end - overlap. -/
def nextStart (text : List Char) (size overlap : Nat) (start : Int) : Int :=
  chunkEnd text size start - overlap

/-- While loop of chunk_text, documents.py lines 72-90, with explicit fuel:
    none means the fuel ran out before the loop broke. Each iteration slices
    and strips the chunk, keeps it only when longer than 50 characters,
    breaks when end has reached the end of the text, and otherwise advances
    start to end - overlap. -/
def chunkLoop (text : List Char) (size overlap : Nat) :
    Nat → Int → List (List Char) → Option (List (List Char))
  | 0, _, _ => none
  | fuel + 1, start, acc =>
    let e := chunkEnd text size start
    let c := pyStrip (pySlice text start e)
    let acc2 := if 50 < c.length then acc ++ [c] else acc
    if (text.length : Int) ≤ e then some acc2
    else chunkLoop text size overlap fuel (e - overlap) acc2

/-- DocumentProcessor.chunk_text, documents.py lines 61-92: texts no longer
    than size are returned as a single chunk; otherwise the sliding-window
    loop runs (here under the given fuel). -/
def chunk_text (text : List Char) (size overlap : Nat) (fuel : Nat) :
    Option (List (List Char)) :=
  if text.length ≤ size then some [text]
  else chunkLoop text size overlap fuel 0 []

/-- Scenario A input of the specification. -/
def scenarioText : List Char :=
  ("The cat sat on the mat. The dog ran in the park.").toList

/-- Worked 20-character text used in the analysis of claim C2: its sentence
    terminator sits 4 characters behind the first tentative chunk end. -/
def loopText : List Char := ("abcdef.abcdefghijklm").toList

/-- Worked 204-character text used in the analysis of claim C5: its only
    sentence terminator sits 100 characters behind the first tentative chunk
    end of a size-202 window. -/
def capText : List Char :=
  List.replicate 102 'a' ++ ['.'] ++ List.replicate 101 'a'

/-- Worked 8-character text with a terminator inside the scan window, used
    for concrete instantiations of the chunk-boundary theorems. -/
def sampleText : List Char := ("abcd.fgh").toList

/-- Content preview stored in the vector payload, documents.py line 198:
    chunk[:200] + "..." if len(chunk) > 200 else chunk. -/
def contentPreview (chunk : List Char) : List Char :=
  if 200 < chunk.length then chunk.take 200 ++ ("...").toList else chunk

/-- RAGPipeline.assess_context_quality, rag.py lines 196-212. The words of
    query and context are the lowercased whitespace-delimited tokens taken as
    sets (dedup); overlap counts the distinct shared words; the comparison
    overlap >= max(1, len(query_words) * 0.3) is Python float arithmetic,
    modelled as exact rational arithmetic. -/
def assess_context_quality (context query : List Char) : Bool :=
  if (pyStrip context).length < 50 then false
  else
    let qws := (pySplit (pyLower query)).dedup
    let cws := (pySplit (pyLower context)).dedup
    let overlap := (qws.filter (fun w => w ∈ cws)).length
    decide (max 1 ((qws.length : ℚ) * (3 / 10)) ≤ (overlap : ℚ))

/-- ContextQualityAssessor.assess exactly as the specification words it
    (spec.md section 4.6): required = max(1, ceil(0.3 x |queryWords|)) with
    the ceiling taken on naturals, result = overlap >= required. This
    definition follows the spec, to be compared with the source-derived
    assess_context_quality. -/
def assessSpec (context query : List Char) : Bool :=
  if (pyStrip context).length < 50 then false
  else
    let qws := (pySplit (pyLower query)).dedup
    let cws := (pySplit (pyLower context)).dedup
    let overlap := (qws.filter (fun w => w ∈ cws)).length
    decide (max 1 ((3 * qws.length + 9) / 10) ≤ overlap)

/-- Ellipsis marker appended on truncation, rag.py line 182. -/
def ellipsisMarker : List Char := ("...").toList

/-- Blank-line separator between hydrated chunks, rag.py line 179. -/
def contextSeparator : List Char := [Char.ofNat 10, Char.ofNat 10]

/-- Chunk hydration lookup of rag.py lines 155-157: the DocumentChunk row
    whose embedding_id equals the hit id, if any. The chunk table maps
    embedding ids to full chunk contents. -/
def lookupChunk (chunkTable : List (Nat × List Char)) (embeddingId : Nat) :
    Option (List Char) :=
  (chunkTable.find? (fun e => e.1 == embeddingId)).map (fun e => e.2)

/-- Hydration loop of rag.py lines 151-176: hits whose chunk record cannot
    be found are skipped. -/
def hydrateParts (chunkTable : List (Nat × List Char)) (hits : List Nat) :
    List (List Char) :=
  hits.filterMap (lookupChunk chunkTable)

/-- Truncation of rag.py lines 180-182: full_context[:MAX_CONTEXT_LENGTH]
    plus the ellipsis marker when the joined context exceeds the limit. -/
def truncateContext (full : List Char) : List Char :=
  if MAX_CONTEXT_LENGTH < full.length then
    full.take MAX_CONTEXT_LENGTH ++ ellipsisMarker
  else full

/-- Context string assembled by RAGPipeline.retrieve_context, rag.py lines
    148-191: hydrate the hits in their given (descending-score) order, join
    with a blank line, truncate with ellipsis. -/
def retrieveContextText (chunkTable : List (Nat × List Char))
    (hits : List Nat) : List Char :=
  truncateContext (List.intercalate contextSeparator (hydrateParts chunkTable hits))

/-- Scored point as returned by the vector backend for one query: point id,
    payload document id, and the similarity score of its stored vector
    against the query vector. The backend computes the score as cosine
    similarity of 384-dimension vectors (Distance.COSINE, rag.py line 33);
    the score is carried here as an exact rational. -/
structure ScoredHit where
  pointId : Nat
  docId : Nat
  score : ℚ
deriving DecidableEq

/-- Modelled from the spec: the external Qdrant client call of rag.py lines
    68-72 (client.search with limit top_k and no threshold), which spec.md
    section 4.3 describes as returning the top-K nearest neighbours ordered
    by descending cosine similarity. The stored points are sorted by
    descending score and the first topK are returned. -/
def clientSearch (points : List ScoredHit) (topK : Nat) : List ScoredHit :=
  (points.mergeSort (fun a b => decide (b.score ≤ a.score))).take topK

/-- VectorStore.search_similar, rag.py lines 58-95: search the collection
    with limit top_k and no threshold, then filter the hits by
    hit.score >= score_threshold manually. -/
def search_similar (points : List ScoredHit) (topK : Nat) (thr : ℚ) :
    List ScoredHit :=
  (clientSearch points topK).filter (fun h => decide (thr ≤ h.score))

/-- Python exception value: the dynamic class name and the message str(e). -/
structure PyExc where
  etype : String
  msg : String
deriving DecidableEq

/-- Decidable equality of Except results, so that concrete extraction
    outcomes can be evaluated. -/
instance {ε α : Type} [DecidableEq ε] [DecidableEq α] :
    DecidableEq (Except ε α) := fun x y =>
  match x, y with
  | Except.ok a, Except.ok b => decidable_of_iff (a = b) (by simp)
  | Except.error a, Except.error b => decidable_of_iff (a = b) (by simp)
  | Except.ok _, Except.error _ => isFalse (fun h => Except.noConfusion h)
  | Except.error _, Except.ok _ => isFalse (fun h => Except.noConfusion h)

/-- Python str.lower() on a string value, character by character (ASCII case
    mapping, as in pyLower). -/
def pyLowerStr (s : String) : String := String.mk (s.data.map Char.toLower)

/-- DocumentProcessor.extract_text, documents.py lines 16-28. The per-format
    parsers (PyPDF2, python-docx, the TXT reader) are abstracted as fallible
    handler arguments over an abstract file type F. The try block dispatches
    on file_type.lower() and raises ValueError on an unknown type; the except
    block catches every exception, including that ValueError, and re-raises a
    generic Exception with message "Text extraction failed: " + str(e). -/
def extract_text {F : Type} (pdfH docxH txtH : F → Except PyExc String)
    (file : F) (fileType : String) : Except PyExc String :=
  let inner : Except PyExc String :=
    if pyLowerStr fileType = "pdf" then pdfH file
    else if pyLowerStr fileType = "docx" ∨ pyLowerStr fileType = "doc" then docxH file
    else if pyLowerStr fileType = "txt" then txtH file
    else Except.error ⟨"ValueError", "Unsupported file type: " ++ fileType⟩
  match inner with
  | Except.ok t => Except.ok t
  | Except.error e =>
      Except.error ⟨"Exception", "Text extraction failed: " ++ e.msg⟩

/-- Concrete failing PDF handler used in the analysis of claim C8. -/
def pdfFail : Unit → Except PyExc String :=
  fun _ => Except.error ⟨"PdfReadError", "bad pdf"⟩

/-- Concrete succeeding DOCX handler used in the analysis of claim C8. -/
def docxOk : Unit → Except PyExc String := fun _ => Except.ok "docx text"

/-- Concrete succeeding TXT handler used in the analysis of claim C8. -/
def txtOk : Unit → Except PyExc String := fun _ => Except.ok "txt text"

/-- Byte of the raw contents of a file. -/
abbrev Byte := Fin 256

/-- UTF-8 continuation byte check: 0x80 to 0xBF. -/
def isCont (b : Byte) : Bool := 128 ≤ b.val && b.val < 192

/-- Strict UTF-8 decoding of a byte sequence to code points, as performed by
    the utf-8 codec in documents.py line 53: rejects stray continuation
    bytes, overlong encodings, surrogates and code points above 0x10FFFF.
    Returns none exactly where Python raises UnicodeDecodeError. -/
def utf8Decode : List Byte → Option (List Nat)
  | [] => some []
  | b :: rest =>
    if b.val < 128 then (utf8Decode rest).map (fun cs => b.val :: cs)
    else if b.val < 194 then none
    else if b.val < 224 then
      match rest with
      | b2 :: rest2 =>
        if isCont b2 then
          (utf8Decode rest2).map (fun cs => ((b.val - 192) * 64 + (b2.val - 128)) :: cs)
        else none
      | [] => none
    else if b.val < 240 then
      match rest with
      | b2 :: b3 :: rest2 =>
        if isCont b2 && isCont b3 then
          let cp := (b.val - 224) * 4096 + (b2.val - 128) * 64 + (b3.val - 128)
          if cp < 2048 ∨ (55296 ≤ cp ∧ cp < 57344) then none
          else (utf8Decode rest2).map (fun cs => cp :: cs)
        else none
      | _ => none
    else if b.val < 245 then
      match rest with
      | b2 :: b3 :: b4 :: rest2 =>
        if isCont b2 && isCont b3 && isCont b4 then
          let cp := (b.val - 240) * 262144 + (b2.val - 128) * 4096 +
            (b3.val - 128) * 64 + (b4.val - 128)
          if cp < 65536 ∨ 1114111 < cp then none
          else (utf8Decode rest2).map (fun cs => cp :: cs)
        else none
      | _ => none
    else none

/-- Latin-1 decoding, documents.py line 53 with encoding latin-1: every byte
    maps to the code point of its own value; total, never raises. -/
def latin1Decode (bs : List Byte) : List Nat := bs.map (fun b => b.val)

/-- Whitespace code points removed by str.strip (the ASCII set suffices
    here). -/
def isWsCp (n : Nat) : Bool :=
  n = 32 || n = 9 || n = 10 || n = 11 || n = 12 || n = 13

/-- Final strip applied to the decoded text, documents.py lines 54 and 59. -/
def stripCps (cs : List Nat) : List Nat :=
  ((cs.dropWhile isWsCp).reverse.dropWhile isWsCp).reverse

/-- Encoding-trying loop of documents.py lines 50-56: return the stripped
    text from the first decoder that succeeds; when every decoder raises
    UnicodeDecodeError, reread with errors=ignore (the fallback). -/
def tryEncodings (fallback : List Byte → List Nat) :
    List (List Byte → Option (List Nat)) → List Byte → List Nat
  | [], bs => stripCps (fallback bs)
  | d :: ds, bs =>
    match d bs with
    | some cs => stripCps cs
    | none => tryEncodings fallback ds bs

/-- DocumentProcessor._extract_txt_text, documents.py lines 47-59: try the
    encodings utf-8, latin-1, cp1252, iso-8859-1 in order; if all fail,
    decode with invalid bytes ignored. The cp1252 and iso-8859-1 codecs and
    the ignore-errors fallback are arbitrary parameters here; the claim C10
    theorem quantifies over them, showing they are unreachable. -/
def extract_txt_text (cp1252D iso88591D : List Byte → Option (List Nat))
    (fallback : List Byte → List Nat) (bs : List Byte) : List Nat :=
  tryEncodings fallback
    [utf8Decode, fun l => some (latin1Decode l), cp1252D, iso88591D] bs

/-- TXT extraction restricted to the first two encodings: utf-8, then
    latin-1. Claim C10 states this already covers every byte sequence. -/
def extractTxtFirstTwo (bs : List Byte) : List Nat :=
  match utf8Decode bs with
  | some cs => stripCps cs
  | none => stripCps (latin1Decode bs)

/-- Vector-store operation issued by the ingestion pipeline: an upsert of a
    point whose payload document_id is docId (rag.py lines 39-56), or a
    delete of every point of a document (VectorStore.delete_document_embeddings,
    rag.py lines 97-113). -/
inductive VecOp where
  | upsert (pointId : Nat) (docId : Nat)
  | deleteByDocument (docId : Nat)
deriving DecidableEq

/-- Effect of one issued operation on the points of the collection of the user,
    as (point id, payload document_id) pairs. Point ids are globally unique
    in every run considered, so an upsert inserts; deleteByDocument removes
    every point whose payload document id matches. -/
def applyVecOp (pts : List (Nat × Nat)) : VecOp → List (Nat × Nat)
  | VecOp.upsert p d => pts ++ [(p, d)]
  | VecOp.deleteByDocument d => pts.filter (fun e => e.2 ≠ d)

/-- Effect of a sequence of vector-store operations. -/
def applyVecOps (pts : List (Nat × Nat)) (ops : List VecOp) : List (Nat × Nat) :=
  ops.foldl applyVecOp pts

/-- Outcome of one DocumentProcessor.process_document run, restricted to the
    observables of claim C1: vector-store operations issued in order,
    chunk rows committed to the relational store, the final document status,
    and whether the exception was re-raised to the caller. -/
structure PipelineResult where
  vectorOps : List VecOp
  committedChunks : List Nat
  docStatus : String
  raised : Bool
deriving DecidableEq

/-- Storage loop and exception handler of DocumentProcessor.process_document,
    documents.py lines 184-243, over the remaining iteration count. For each
    chunk index i the pipeline first upserts the vector point (payload
    document_id = docId, uuid point ids abstracted to the chunk index), then
    adds the Chunk row to the pending transaction. An exception injected at
    chunk index failAt (the store or the embedding failing there) reaches the
    except block of lines 221-243, which rolls the pending rows back, marks
    the document failed from a fresh session, and re-raises; the except block
    issues no vector-store operation. On normal completion the transaction
    commits and the status becomes completed (lines 213-216). -/
def storeLoop (docId : Nat) (failAt : Option Nat) :
    Nat → Nat → List VecOp → List Nat → PipelineResult
  | 0, _, ops, pending =>
    { vectorOps := ops, committedChunks := pending
      docStatus := "completed", raised := false }
  | r + 1, i, ops, pending =>
    if failAt = some i then
      { vectorOps := ops, committedChunks := [], docStatus := "failed", raised := true }
    else
      storeLoop docId failAt r (i + 1)
        (ops ++ [VecOp.upsert i docId]) (pending ++ [i])

/-- DocumentProcessor.process_document for a document of numChunks chunks
    with an optional injected failure. -/
def process_document (docId numChunks : Nat) (failAt : Option Nat) :
    PipelineResult :=
  storeLoop docId failAt numChunks 0 [] []

theorem scanBack_some_spec (text : List Char) :
    ∀ (n : Nat) (i j : Int), scanBack text i n = some j →
      i - n < j ∧ j ≤ i ∧ pyGet text j ∈ sentenceEnders ∧
        ∀ k : Int, j < k → k ≤ i → pyGet text k ∉ sentenceEnders := by
  intro n
  induction n with
  | zero => intro i j h; exact absurd h (by simp [scanBack])
  | succ m ih =>
    intro i j h
    rw [scanBack] at h
    by_cases hm : pyGet text i ∈ sentenceEnders
    · rw [if_pos hm] at h
      injection h with h
      subst h
      exact ⟨by omega, le_refl _, hm, fun k hk1 hk2 => absurd (lt_of_lt_of_le hk1 hk2) (lt_irrefl _)⟩
    · rw [if_neg hm] at h
      obtain ⟨h1, h2, h3, h4⟩ := ih (i - 1) j h
      refine ⟨by omega, by omega, h3, ?_⟩
      intro k hk1 hk2
      rcases eq_or_lt_of_le hk2 with rfl | hlt
      · exact hm
      · exact h4 k hk1 (by omega)

theorem scanBack_eq_some (text : List Char) :
    ∀ (n : Nat) (i j : Int), i - n < j → j ≤ i →
      pyGet text j ∈ sentenceEnders →
      (∀ k : Int, j < k → k ≤ i → pyGet text k ∉ sentenceEnders) →
      scanBack text i n = some j := by
  intro n
  induction n with
  | zero => intro i j h1 h2 _ _; omega
  | succ m ih =>
    intro i j h1 h2 h3 h4
    rw [scanBack]
    by_cases hm : pyGet text i ∈ sentenceEnders
    · rw [if_pos hm]
      have hji : j = i := by
        by_contra hne
        exact h4 i (lt_of_le_of_ne h2 hne) (le_refl _) hm
      rw [hji]
    · rw [if_neg hm]
      have hji : j ≤ i - 1 := by
        rcases eq_or_lt_of_le h2 with rfl | hlt
        · exact absurd h3 hm
        · omega
      exact ih (i - 1) j (by omega) hji h3 (fun k hk1 hk2 => h4 k hk1 (by omega))

theorem nextStart_progress (text : List Char) (size overlap : Nat) (start : Int)
    (hov : overlap < size)
    (hov2 : (overlap : Int) ≤ max ((size / 2 : Nat) : Int) ((size : Int) - 100) + 1) :
    start < nextStart text size overlap start := by
  unfold nextStart chunkEnd
  by_cases hlen : start + (size : Int) < (text.length : Int)
  · rw [if_pos hlen]
    cases h : findBoundary text
        (max (start + ((size / 2 : Nat) : Int)) (start + (size : Int) - 100))
        (start + (size : Int)) with
    | none =>
      show start < start + (size : Int) - (overlap : Int)
      omega
    | some i =>
      show start < i + 1 - (overlap : Int)
      unfold findBoundary at h
      obtain ⟨h1, h2, _, _⟩ := scanBack_some_spec text _ _ _ h
      have hstop : max (start + ((size / 2 : Nat) : Int)) (start + (size : Int) - 100) ≤ start + (size : Int) := by
        have : ((size / 2 : Nat) : Int) ≤ (size : Int) := by
          have := Nat.div_le_self size 2
          exact_mod_cast this
        omega
      omega
  · rw [if_neg hlen]
    omega

theorem chunkLoop_succ_eq (text : List Char) (size overlap fuel : Nat)
    (start : Int) (acc : List (List Char)) :
    chunkLoop text size overlap (fuel + 1) start acc =
      (if (text.length : Int) ≤ chunkEnd text size start then
        some (if 50 < (pyStrip (pySlice text start (chunkEnd text size start))).length
          then acc ++ [pyStrip (pySlice text start (chunkEnd text size start))] else acc)
      else chunkLoop text size overlap fuel (chunkEnd text size start - overlap)
        (if 50 < (pyStrip (pySlice text start (chunkEnd text size start))).length
          then acc ++ [pyStrip (pySlice text start (chunkEnd text size start))] else acc)) := rfl

theorem chunkLoop_isSome (text : List Char) (size overlap : Nat)
    (hov : overlap < size)
    (hov2 : (overlap : Int) ≤ max ((size / 2 : Nat) : Int) ((size : Int) - 100) + 1) :
    ∀ (fuel : Nat) (start : Int) (acc : List (List Char)),
      0 ≤ start → start < (text.length : Int) →
      (text.length : Int) - start ≤ (fuel : Int) →
      (chunkLoop text size overlap fuel start acc).isSome = true := by
  intro fuel
  induction fuel with
  | zero => intro start acc h0 h1 h2; omega
  | succ m ih =>
    intro start acc h0 h1 h2
    rw [chunkLoop_succ_eq]
    by_cases hend : (text.length : Int) ≤ chunkEnd text size start
    · rw [if_pos hend]; rfl
    · rw [if_neg hend]
      have hprog := nextStart_progress text size overlap start hov hov2
      unfold nextStart at hprog
      exact ih (chunkEnd text size start - overlap) _ (by omega) (by omega) (by omega)

/-- Claim C2 (amended, part): under the stronger cut bound the window start
    strictly increases on every iteration and the loop terminates within
    fuel len(text). -/
theorem chunk_text_forward_progress (text : List Char) (size overlap : Nat)
    (_hsize : 0 < size) (hov : overlap < size)
    (hcut : (overlap : Int) ≤ max ((size / 2 : Nat) : Int) ((size : Int) - 100) + 1) :
    (∀ start : Int, start < nextStart text size overlap start) ∧
    (chunk_text text size overlap text.length).isSome = true := by
  constructor
  · intro start
    exact nextStart_progress text size overlap start hov hcut
  · unfold chunk_text
    by_cases hle : text.length ≤ size
    · rw [if_pos hle]; rfl
    · rw [if_neg hle]
      exact chunkLoop_isSome text size overlap hov hcut text.length 0 []
        (by omega) (by omega) (by omega)

theorem chunk_text_forward_progress_witness :
    0 < 10 ∧ 6 < 10 ∧
      ((6 : Int) ≤ max ((10 / 2 : Nat) : Int) ((10 : Int) - 100) + 1) ∧
      (chunk_text loopText 10 6 loopText.length).isSome = true :=
  ⟨by decide, by decide, by decide,
    (chunk_text_forward_progress loopText 10 6 (by decide) (by decide) (by decide)).2⟩

theorem chunkLoop_loopText_stuck :
    ∀ (fuel : Nat) (acc : List (List Char)),
      chunkLoop loopText 10 8 fuel (-1) acc = none := by
  intro fuel
  induction fuel with
  | zero => intro acc; rfl
  | succ m ih =>
    intro acc
    rw [chunkLoop_succ_eq]
    have he : chunkEnd loopText 10 (-1) = 7 := by decide
    have hl : ((loopText.length : Nat) : Int) = 20 := by decide
    have hc : (pyStrip (pySlice loopText (-1) 7)).length = 0 := by decide
    rw [he, hl, hc]
    norm_num
    exact ih acc

/-- Claim C2 counterexample: with size 10 and overlap 8 (0 <= overlap < size)
    the window start moves from 0 to -1 and stays there, so the loop never
    terminates (none for a representative large fuel). -/
theorem chunk_text_nontermination_cex :
    8 < 10 ∧ nextStart loopText 10 8 0 = -1 ∧ nextStart loopText 10 8 (-1) = -1 ∧
    chunk_text loopText 10 8 1000000 = none := by
  refine ⟨by omega, by decide, by decide, ?_⟩
  show chunk_text loopText 10 8 1000000 = none
  unfold chunk_text
  rw [if_neg (by decide)]
  have h1 : (1000000 : Nat) = 999999 + 1 := by norm_num
  rw [h1, chunkLoop_succ_eq]
  have he : chunkEnd loopText 10 0 = 7 := by decide
  have hl : ((loopText.length : Nat) : Int) = 20 := by decide
  have hc : (pyStrip (pySlice loopText 0 7)).length = 7 := by decide
  rw [he, hl, hc]
  rw [if_neg (show ¬ ((20 : Int) ≤ 7) by omega), if_neg (show ¬ (50 < 7) by omega)]
  rw [show (7 : Int) - ((8 : Nat) : Int) = -1 by norm_num]
  exact chunkLoop_loopText_stuck 999999 []

/-- Claim C5 (amended): the backward scan window runs from the tentative end
    down to max(start + size/2, end - 100) exclusive; the cut lands just
    after the highest-index terminator in that window, and at exactly
    start + size when the window holds none. -/
theorem chunkEnd_window (text : List Char) (size : Nat) (start : Int)
    (hin : start + (size : Int) < (text.length : Int)) :
    (∀ j : Int,
        max (start + ((size / 2 : Nat) : Int)) (start + (size : Int) - 100) < j →
        j ≤ start + (size : Int) →
        pyGet text j ∈ sentenceEnders →
        (∀ k : Int, j < k → k ≤ start + (size : Int) → pyGet text k ∉ sentenceEnders) →
        chunkEnd text size start = j + 1) ∧
    ((∀ k : Int,
        max (start + ((size / 2 : Nat) : Int)) (start + (size : Int) - 100) < k →
        k ≤ start + (size : Int) → pyGet text k ∉ sentenceEnders) →
      chunkEnd text size start = start + (size : Int)) := by
  have hstop : max (start + ((size / 2 : Nat) : Int)) (start + (size : Int) - 100) ≤
      start + (size : Int) := by
    have h2 : ((size / 2 : Nat) : Int) ≤ (size : Int) := by
      exact_mod_cast Nat.div_le_self size 2
    omega
  constructor
  · intro j hj1 hj2 hj3 hj4
    unfold chunkEnd
    rw [if_pos hin]
    unfold findBoundary
    rw [scanBack_eq_some text _ _ j (by omega) hj2 hj3 hj4]
  · intro hnone
    unfold chunkEnd
    rw [if_pos hin]
    cases h : findBoundary text
        (max (start + ((size / 2 : Nat) : Int)) (start + (size : Int) - 100))
        (start + (size : Int)) with
    | none => rfl
    | some i =>
      unfold findBoundary at h
      obtain ⟨h1, h2, h3, _⟩ := scanBack_some_spec text _ _ _ h
      exact absurd h3 (hnone i (by omega) h2)

set_option maxRecDepth 100000 in
/-- Claim C5 counterexample: with size 202 the terminator at index 102 lies
    within size/2 characters of the tentative end 202, yet the cut stays at
    202 because the scan window is capped at 100 characters. -/
theorem chunkEnd_window_cap_cex :
    (0 : Int) + (202 : Int) < (capText.length : Int) ∧
    (202 : Int) - 102 ≤ ((202 / 2 : Nat) : Int) ∧
    pyGet capText 102 ∈ sentenceEnders ∧
    chunkEnd capText 202 0 = 202 ∧ chunkEnd capText 202 0 ≠ 102 + 1 := by decide

theorem chunkEnd_window_witness :
    (0 : Int) + (6 : Int) < (sampleText.length : Int) ∧ chunkEnd sampleText 6 0 = 4 + 1 :=
  ⟨by decide, (chunkEnd_window sampleText 6 0 (by decide)).1 4 (by decide) (by decide)
    (by decide) (fun k hk1 hk2 => by interval_cases k <;> decide)⟩

/-- Claim C3 counterexample: on Scenario A with size 20 and overlap 5 the
    chunker returns no chunks at all, and the first cut is at exactly 20, not
    at the sentence boundary. -/
theorem scenario_first_chunk_cex :
    chunk_text scenarioText 20 5 48 = some [] ∧ chunkEnd scenarioText 20 0 = 20 := by
  exact ⟨by decide, by decide⟩

/-- Claim C3 (amended): on Scenario A every window is cut at start + 20 or at
    the text end (the terminators at 22 and 47 never fall in a scan window),
    every stripped chunk is under 51 characters and is discarded, and the
    chunker returns the empty list. -/
theorem scenario_chunks_empty :
    chunk_text scenarioText 20 5 scenarioText.length = some [] ∧
    chunkEnd scenarioText 20 0 = 20 ∧ chunkEnd scenarioText 20 15 = 35 ∧
    chunkEnd scenarioText 20 30 = 50 := by decide

theorem ratGate (a b : Nat) :
    (max 1 ((b : ℚ) * (3 / 10)) ≤ (a : ℚ)) ↔ max 1 ((3 * b + 9) / 10) ≤ a := by
  rw [max_le_iff, max_le_iff]
  have hq : ((b : ℚ) * (3 / 10) ≤ (a : ℚ)) ↔ (3 * b : ℚ) ≤ (10 * a : ℚ) := by
    rw [show (b : ℚ) * (3 / 10) = (3 * b : ℚ) / 10 by ring,
      div_le_iff₀ (by norm_num : (0 : ℚ) < 10)]
    constructor <;> intro h <;> linarith
  have hq2 : ((3 * b : ℚ) ≤ (10 * a : ℚ)) ↔ 3 * b ≤ 10 * a := by
    exact_mod_cast Iff.rfl
  have h1 : ((1 : ℚ) ≤ (a : ℚ)) ↔ 1 ≤ a := by exact_mod_cast Iff.rfl
  have h2 : ((3 * b + 9) / 10 ≤ a) ↔ 3 * b ≤ 10 * a := by omega
  constructor
  · rintro ⟨x, y⟩
    exact ⟨h1.mp x, h2.mpr (hq2.mp (hq.mp y))⟩
  · rintro ⟨x, y⟩
    exact ⟨h1.mpr x, hq.mpr (hq2.mpr (h2.mp y))⟩

/-- Claim C4: assess_context_quality returns false when the trimmed context
    is under 50 characters, and otherwise true exactly when the number of
    distinct shared lowercase words reaches max(1, ceil(0.3 x number of
    distinct query words)) - the assessor agrees with the spec formula
    assessSpec on every input. -/
theorem assess_matches_spec (context query : List Char) :
    assess_context_quality context query = assessSpec context query := by
  unfold assess_context_quality assessSpec
  by_cases h : (pyStrip context).length < 50
  · rw [if_pos h, if_pos h]
  · rw [if_neg h, if_neg h]
    exact decide_eq_decide.mpr (ratGate _ _)

/-- Claim C6: the assembled retrieval context never exceeds
    MAX_CONTEXT_LENGTH plus the ellipsis marker, and it is the truncated
    form with the marker appended exactly when the blank-line-joined
    hydrated chunks exceed MAX_CONTEXT_LENGTH. -/
theorem retrieveContext_length_bound (chunkTable : List (Nat × List Char))
    (hits : List Nat) :
    (retrieveContextText chunkTable hits).length ≤
      MAX_CONTEXT_LENGTH + ellipsisMarker.length ∧
    (retrieveContextText chunkTable hits =
        (List.intercalate contextSeparator (hydrateParts chunkTable hits)).take
          MAX_CONTEXT_LENGTH ++ ellipsisMarker
      ↔ MAX_CONTEXT_LENGTH <
          (List.intercalate contextSeparator (hydrateParts chunkTable hits)).length) := by
  unfold retrieveContextText truncateContext
  set full := List.intercalate contextSeparator (hydrateParts chunkTable hits) with hfull
  have h3 : ellipsisMarker.length = 3 := by decide
  by_cases h : MAX_CONTEXT_LENGTH < full.length
  · rw [if_pos h]
    refine ⟨?_, ⟨fun _ => h, fun _ => rfl⟩⟩
    rw [List.length_append, List.length_take, h3]
    unfold MAX_CONTEXT_LENGTH
    omega
  · rw [if_neg h]
    refine ⟨by rw [h3]; unfold MAX_CONTEXT_LENGTH at *; omega, ?_, fun hc => absurd hc h⟩
    intro heq
    exfalso
    have hlen := congrArg List.length heq
    rw [List.length_append, List.length_take, h3] at hlen
    unfold MAX_CONTEXT_LENGTH at *
    omega

/-- Claim C7: search_similar returns at most topK hits, in descending score
    order; raising the threshold only removes hits from the top-K set, and
    every returned hit under any threshold lies in the original top-K
    returned by the backend. -/
theorem search_similar_post_filter (points : List ScoredHit) (topK : Nat)
    (t u : ℚ) (htu : t ≤ u) :
    (search_similar points topK t).length ≤ topK ∧
    List.Pairwise (fun a b => b.score ≤ a.score) (search_similar points topK t) ∧
    (∀ h, h ∈ search_similar points topK u → h ∈ search_similar points topK t) ∧
    (∀ h, h ∈ search_similar points topK t → h ∈ clientSearch points topK) := by
  refine ⟨?_, ?_, ?_, ?_⟩
  · exact le_trans (List.length_filter_le _ _) (List.length_take_le _ _)
  · have hs := @List.sorted_mergeSort ScoredHit
      (fun a b => decide (b.score ≤ a.score))
      (fun a b c hab hbc => by
        simp only [decide_eq_true_eq] at hab hbc ⊢
        exact le_trans hbc hab)
      (fun a b => by
        simp only [Bool.or_eq_true, decide_eq_true_eq]
        exact le_total b.score a.score)
      points
    have hp : List.Pairwise (fun a b : ScoredHit => b.score ≤ a.score)
        (clientSearch points topK) := by
      unfold clientSearch
      exact List.Pairwise.sublist (List.take_sublist _ _)
        (hs.imp (fun hab => of_decide_eq_true hab))
    exact hp.filter _
  · intro h hm
    unfold search_similar at hm ⊢
    rw [List.mem_filter] at hm ⊢
    refine ⟨hm.1, ?_⟩
    have := of_decide_eq_true hm.2
    exact decide_eq_true (le_trans htu this)
  · intro h hm
    exact (List.mem_filter.mp hm).1

theorem search_similar_post_filter_witness :
    ((1 : ℚ) / 2 ≤ 1) ∧ (search_similar [⟨0, 0, 1⟩] 5 (1 / 2)).length ≤ 5 :=
  ⟨by norm_num, (search_similar_post_filter [⟨0, 0, 1⟩] 5 (1 / 2) 1 (by norm_num)).1⟩

/-- Claim C8 counterexample: an unknown declared type and a parse failure
    both surface as the same generic exception class with the same message
    prefix, so the two failure kinds are not distinguishable by type; and
    the declared type doc, outside the claimed supported set, succeeds. -/
theorem extract_text_kinds_cex :
    extract_text pdfFail docxOk txtOk () "xyz" =
      Except.error ⟨"Exception", "Text extraction failed: Unsupported file type: xyz"⟩ ∧
    extract_text pdfFail docxOk txtOk () "pdf" =
      Except.error ⟨"Exception", "Text extraction failed: bad pdf"⟩ ∧
    extract_text pdfFail docxOk txtOk () "doc" = Except.ok "docx text" := by
  exact ⟨by decide, by decide, by decide⟩

/-- Claim C8 (amended): every extraction failure is the single generic
    exception kind with message prefix Text extraction failed; an unknown
    declared type (outside pdf, docx, doc, txt after lowercasing) yields
    that exception with the unsupported-type message; and no text is
    returned in any failure. -/
theorem extract_text_single_error_kind {F : Type}
    (pdfH docxH txtH : F → Except PyExc String) (file : F) (fileType : String) :
    (∀ e, extract_text pdfH docxH txtH file fileType = Except.error e →
      e.etype = "Exception" ∧ ∃ s, e.msg = "Text extraction failed: " ++ s) ∧
    (pyLowerStr fileType ≠ "pdf" → pyLowerStr fileType ≠ "docx" →
      pyLowerStr fileType ≠ "doc" → pyLowerStr fileType ≠ "txt" →
      extract_text pdfH docxH txtH file fileType =
        Except.error ⟨"Exception",
          "Text extraction failed: Unsupported file type: " ++ fileType⟩) ∧
    (∀ e t, extract_text pdfH docxH txtH file fileType = Except.error e →
      extract_text pdfH docxH txtH file fileType ≠ Except.ok t) := by
  refine ⟨?_, ?_, ?_⟩
  · intro e h
    unfold extract_text at h
    cases hinner : (if pyLowerStr fileType = "pdf" then pdfH file
      else if pyLowerStr fileType = "docx" ∨ pyLowerStr fileType = "doc" then docxH file
      else if pyLowerStr fileType = "txt" then txtH file
      else Except.error ⟨"ValueError", "Unsupported file type: " ++ fileType⟩) with
    | ok t => rw [hinner] at h; simp at h
    | error e2 =>
      rw [hinner] at h
      simp only [] at h
      injection h with h
      subst h
      exact ⟨rfl, e2.msg, rfl⟩
  · intro h1 h2 h3 h4
    unfold extract_text
    rw [if_neg h1, if_neg (not_or.mpr ⟨h2, h3⟩), if_neg h4]
    show (Except.error ⟨"Exception",
        "Text extraction failed: " ++ ("Unsupported file type: " ++ fileType)⟩ :
        Except PyExc String) =
      Except.error ⟨"Exception",
        "Text extraction failed: Unsupported file type: " ++ fileType⟩
    rw [← String.append_assoc]
    rfl
  · intro e t h1 h2
    rw [h1] at h2
    exact Except.noConfusion h2

theorem extract_text_single_error_kind_witness :
    pyLowerStr "zzz" ≠ "pdf" ∧
    extract_text pdfFail docxOk txtOk () "zzz" =
      Except.error ⟨"Exception", "Text extraction failed: Unsupported file type: zzz"⟩ :=
  ⟨by decide, (extract_text_single_error_kind pdfFail docxOk txtOk () "zzz").2.1
    (by decide) (by decide) (by decide) (by decide)⟩

set_option maxRecDepth 100000 in
/-- Claim C9 counterexample: a 201-character chunk yields a preview of 203
    characters, so the claimed 200-character bound fails. -/
theorem contentPreview_cex :
    200 < (List.replicate 201 'a').length ∧
    (contentPreview (List.replicate 201 'a')).length = 203 ∧
    ¬ (contentPreview (List.replicate 201 'a')).length ≤ 200 := by decide

/-- Claim C9 (amended): the stored preview is the chunk itself when at most
    200 characters, and the first 200 characters plus an ellipsis otherwise;
    its length is bounded by 203, not 200. -/
theorem contentPreview_bound (chunk : List Char) :
    (contentPreview chunk).length ≤ 203 ∧
    (chunk.length ≤ 200 → contentPreview chunk = chunk) ∧
    (200 < chunk.length →
      contentPreview chunk = chunk.take 200 ++ ("...").toList ∧
      (contentPreview chunk).length = 203) := by
  unfold contentPreview
  have h3 : (("...").toList).length = 3 := by decide
  by_cases h : 200 < chunk.length
  · rw [if_pos h]
    have hlen : (chunk.take 200 ++ ("...").toList).length = 203 := by
      rw [List.length_append, List.length_take, h3]; omega
    exact ⟨by omega, fun hle => by omega, fun _ => ⟨rfl, hlen⟩⟩
  · rw [if_neg h]
    exact ⟨by omega, fun _ => rfl, fun hc => absurd hc h⟩

set_option maxRecDepth 100000 in
theorem contentPreview_bound_witness :
    200 < (List.replicate 201 'b').length ∧
    (contentPreview (List.replicate 201 'b')).length = 203 :=
  ⟨by decide, ((contentPreview_bound (List.replicate 201 'b')).2.2 (by decide)).2⟩

/-- Claim C10: TXT extraction is decided by the first two encodings alone:
    utf-8, then latin-1, which accepts every byte sequence; the cp1252 and
    iso-8859-1 attempts and the ignore-errors fallback are unreachable, for
    every possible behaviour of those codecs, and extraction always returns
    a text. -/
theorem extract_txt_first_two (cp1252D iso88591D : List Byte → Option (List Nat))
    (fallback : List Byte → List Nat) (bs : List Byte) :
    extract_txt_text cp1252D iso88591D fallback bs = extractTxtFirstTwo bs := by
  cases h : utf8Decode bs with
  | some cs => simp [extract_txt_text, extractTxtFirstTwo, tryEncodings, h]
  | none => simp [extract_txt_text, extractTxtFirstTwo, tryEncodings, h]

theorem applyVecOps_upserts (docId : Nat) :
    ∀ (l : List Nat) (pts : List (Nat × Nat)),
      applyVecOps pts (l.map (fun t => VecOp.upsert t docId)) =
        pts ++ l.map (fun t => (t, docId)) := by
  intro l
  induction l with
  | nil => intro pts; simp [applyVecOps]
  | cons x xs ih =>
    intro pts
    simp only [List.map_cons]
    show applyVecOps (applyVecOp pts (VecOp.upsert x docId)) (xs.map (fun t => VecOp.upsert t docId)) =
      pts ++ ((x, docId) :: xs.map (fun t => (t, docId)))
    rw [ih]
    simp [applyVecOp]

theorem storeLoop_fail (docId : Nat) :
    ∀ (r i k : Nat) (ops : List VecOp) (pending : List Nat),
      i ≤ k → k < i + r →
      storeLoop docId (some k) r i ops pending =
        { vectorOps := ops ++ (List.range (k - i)).map (fun t => VecOp.upsert (i + t) docId),
          committedChunks := [], docStatus := "failed", raised := true } := by
  intro r
  induction r with
  | zero => intro i k ops pending h1 h2; omega
  | succ m ih =>
    intro i k ops pending h1 h2
    rw [storeLoop]
    by_cases hik : k = i
    · subst hik
      rw [if_pos rfl]
      simp
    · have hlt : i < k := lt_of_le_of_ne h1 (fun he => hik he.symm)
      rw [if_neg (fun he : some k = some i => hik (Option.some.inj he))]
      rw [ih (i + 1) k _ _ (by omega) (by omega)]
      have hk : k - i = (k - (i + 1)) + 1 := by omega
      rw [hk, List.range_succ_eq_map, List.map_cons, List.map_map, List.append_assoc]
      have hfun : ((fun t => VecOp.upsert (i + t) docId) ∘ Nat.succ) =
          (fun t => VecOp.upsert (i + 1 + t) docId) := by
        funext t
        simp only [Function.comp_apply]
        congr 1
        omega
      rw [hfun]
      rfl

/-- Claim C1 counterexample: a failure at chunk index 1 of 2 reaches the
    exception handler after one vector point was upserted and before any
    Chunk row was committed; the handler issues no deleteByDocument and the
    point with the document id remains in the collection. -/
theorem ingestion_no_compensation_cex :
    (process_document 7 2 (some 1)).raised = true ∧
    (process_document 7 2 (some 1)).committedChunks = [] ∧
    (process_document 7 2 (some 1)).vectorOps = [VecOp.upsert 0 7] ∧
    (VecOp.deleteByDocument 7 ∉ (process_document 7 2 (some 1)).vectorOps) ∧
    applyVecOps [] (process_document 7 2 (some 1)).vectorOps = [(0, 7)] := by decide

/-- Claim C1 (amended): on any mid-loop failure the pipeline re-raises after
    rolling back the pending Chunk rows and marking the document failed, but
    issues no compensating deleteByDocument: every vector point upserted
    before the failure, all carrying the document id, remains in the
    collection. -/
theorem ingestion_failure_leaves_orphans (docId n k : Nat) (pts : List (Nat × Nat))
    (hk : k < n) :
    (process_document docId n (some k)).raised = true ∧
    (process_document docId n (some k)).docStatus = "failed" ∧
    (process_document docId n (some k)).committedChunks = [] ∧
    (∀ d, VecOp.deleteByDocument d ∉ (process_document docId n (some k)).vectorOps) ∧
    applyVecOps pts (process_document docId n (some k)).vectorOps =
      pts ++ (List.range k).map (fun i => (i, docId)) := by
  unfold process_document
  rw [storeLoop_fail docId n 0 k [] [] (Nat.zero_le k) (by omega)]
  refine ⟨rfl, rfl, rfl, ?_, ?_⟩
  · intro d hm
    simp only [List.nil_append, List.mem_map] at hm
    obtain ⟨t, _, ht⟩ := hm
    exact VecOp.noConfusion ht
  · show applyVecOps pts
        ([] ++ (List.range (k - 0)).map (fun t => VecOp.upsert (0 + t) docId)) =
      pts ++ (List.range k).map (fun i => (i, docId))
    rw [List.nil_append, Nat.sub_zero]
    have hfun : (fun t => VecOp.upsert (0 + t) docId) = (fun t => VecOp.upsert t docId) := by
      funext t
      rw [Nat.zero_add]
    rw [hfun]
    exact applyVecOps_upserts docId (List.range k) pts

theorem ingestion_failure_leaves_orphans_witness :
    1 < 3 ∧ applyVecOps [] (process_document 9 3 (some 1)).vectorOps =
      [] ++ (List.range 1).map (fun i => (i, 9)) :=
  ⟨by omega, (ingestion_failure_leaves_orphans 9 3 1 [] (by omega)).2.2.2.2⟩

end Macosbuild
